import Mathlib

/-!
Verification development for the image-harvesting crawler repository
(danbooru_crawler.py, pixiv_crawler.py, pixiv_ranking_crawler.py,
unsplash_crawler.py).

The Python scripts are shallowly embedded: network I/O is supplied by an
environment (a function from request parameters to the outcome the remote
side produces), the filesystem is an explicit value (lists of written file
names and metadata keys), wall-clock time is a rational number, and the
`print` calls become an accumulated list of log-line strings built with the
same formats as the source.  Each embedded function mirrors the control flow
of the corresponding Python function; fields of JSON objects that the
control flow never inspects (image bytes, metadata record contents) are not
modelled.
-/

/-! ## String helpers mirroring Python primitives -/

/-- Python `str.split()` with no argument: split on whitespace runs,
dropping empty pieces. -/
def pySplit (s : String) : List String :=
  (s.split Char.isWhitespace).filter (fun t => t ≠ "")

/-- Python `str.lower()` (ASCII-adequate for tag strings). -/
def pyLower (s : String) : String := s.map Char.toLower

/-- Index of the last occurrence of a character in a list, if any
(Python `str.rfind`). -/
def lastIdxOf (c : Char) : List Char → Option Nat
  | [] => none
  | x :: xs =>
    match lastIdxOf c xs with
    | some i => some (i + 1)
    | none => if x = c then some 0 else none

/-- The extension component of `os.path.splitext` (posix separator, as in
the URL strings the crawler feeds it): the suffix from the last dot,
provided that dot lies after the last slash and the basename has a
non-dot character before it. -/
def splitextExt (p : String) : String :=
  let l := p.data
  let sepIdx : Int := match lastIdxOf '/' l with | some i => (i : Int) | none => -1
  let dotIdx : Int := match lastIdxOf '.' l with | some i => (i : Int) | none => -1
  if sepIdx < dotIdx then
    let fnStart := (sepIdx + 1).toNat
    let dn := dotIdx.toNat
    if (List.range' fnStart (dn - fnStart)).any (fun k => l.getD k '.' ≠ '.') then
      String.mk (l.drop dn)
    else ""
  else ""

/-- Substring test: does `needle` occur contiguously inside `hay`?  Used to
ask whether a log line mentions a given item id. -/
def strContainsSub (hay needle : String) : Bool :=
  (List.range (hay.data.length + 1)).any (fun i => needle.data.isPrefixOf (hay.data.drop i))

/-! ## Durable-storage write events

A store operation reports the ordered list of writes it performed, so that
claims about write ordering (asset before metadata) are statable. -/

inductive WEvent where
  | assetWrite (name : String)
  | metaWrite (key : String)
deriving Repr, DecidableEq

/-! ## Danbooru crawler (danbooru_crawler.py) -/

/-- The fields of a danbooru post JSON object that `DanbooruCrawler.crawl`
inspects for control flow.  `rating`, `source`, `score`, width and height
only flow into the metadata record's contents, which no claim observes,
so they are not modelled. -/
structure Post where
  id : Nat
  fileUrl : Option String
  tagString : String
deriving Repr, DecidableEq

/-- Environment of one `DanbooruCrawler.crawl` run: constructor arguments
plus the behaviour of the remote side.  `pages p` is the outcome of the
`client.get(self.base_url, ...)` call for page `p` (`Except.error e`
models any exception raised by the request / `raise_for_status` /
`.json()`, with `e` the exception text).  `downloadOk url` tells whether
the image GET for `url` succeeds, and `netErr url` is the exception text
when it does not. -/
structure DEnv where
  tags : List String
  startPage : Nat
  maxPages : Nat
  imagesPerPage : Nat
  pages : Nat → Except String (List Post)
  downloadOk : String → Bool
  netErr : String → String

/-- Mutable state of one `DanbooruCrawler.crawl` run: the `image_id_set`
dedup set, the files written into `output_dir`, the ids whose
`metadata/{id}.json` record was written (`self.metadata` holds the same
ids), the ids for which an image download was attempted, the pages
actually fetched, and the `empty_post_cnt` counter. -/
structure DState where
  seen : List Nat
  files : List String
  metaIds : List Nat
  downloadAttempts : List Nat
  fetchedPages : List Nat
  emptyCnt : Nat
deriving Repr, DecidableEq

def dInit : DState :=
  { seen := [], files := [], metaIds := [], downloadAttempts := [],
    fetchedPages := [], emptyCnt := 0 }

def dFetchErrLine (p : Nat) (e : String) : String :=
  "[ERROR] Failed to fetch page " ++ toString p ++ ": " ++ e

def dPageHeaderLine (tags : List String) (p : Nat) : String :=
  "crawling tags: " ++ toString tags ++ ", page: " ++ toString p

def dEmptyCntLine (n : Nat) : String :=
  "[INFO] Empty post count: " ++ toString n

def dStopLine (p : Nat) : String :=
  "[INFO] No more posts returned at page " ++ toString p ++ ", stopping early."

def dDownloadErrLine (e : String) : String :=
  "[ERROR] Failed to download image: " ++ e

/-- `DanbooruCrawler.fetch_posts`: on any exception the error is printed
and `[]` is returned; on success the decoded post list is returned.
(The `time.sleep(2)` and the request parameters do not affect any
modelled observable.) -/
def fetchPosts (env : DEnv) (p : Nat) : List Post × List String :=
  match env.pages p with
  | Except.ok posts => (posts, [])
  | Except.error e => ([], [dFetchErrLine p e])

/-- Result of one store operation (download + metadata write). -/
structure DStoreRes where
  ok : Bool
  files : List String
  metaIds : List Nat
  events : List WEvent
  log : List String
deriving Repr, DecidableEq

/-- File write: `open(path, "wb")` truncates and rewrites; the name list
gains the name if absent, and the write is recorded as an event either
way. -/
def insertFile (files : List String) (fname : String) : List String :=
  if fname ∈ files then files else files ++ [fname]

/-- The store section of `DanbooruCrawler.crawl` (download_image followed,
on success, by the metadata append and `metadata/{id}.json` dump).  Note
the code consults no durable state before writing: it downloads and
overwrites unconditionally. -/
def danbooruStoreOp (files : List String) (metaIds : List Nat) (imageId : Nat)
    (fname : String) (dlOk : Bool) (errMsg : String) : DStoreRes :=
  if dlOk then
    { ok := true
      files := insertFile files fname
      metaIds := metaIds ++ [imageId]
      events := [WEvent.assetWrite fname, WEvent.metaWrite (toString imageId)]
      log := [] }
  else
    { ok := false, files := files, metaIds := metaIds, events := []
      log := [dDownloadErrLine errMsg] }

def dAllowedExts : List String := [".jpg", ".jpeg", ".png", ".webp"]

/-- URL normalisation in `DanbooruCrawler.crawl`. -/
def danbooruImageUrl (u : String) : String :=
  if String.isPrefixOf ("/") u then "https://danbooru.donmai.us" ++ u else u

/-- The tail of the `for post in posts` loop body once the dedup guard
has passed: mark the id seen, normalise the URL, check the extension
allow-list, and perform the store operation. -/
def storeSection (env : DEnv) (st : DState) (pid : Nat) (u : String) :
    DState × List String :=
  let st1 := { st with seen := st.seen ++ [pid] }
  let imageUrl := danbooruImageUrl u
  let ext := splitextExt imageUrl
  if ext ∉ dAllowedExts then (st1, [])
  else
    let fname := toString pid ++ ext
    let st2 := { st1 with downloadAttempts := st1.downloadAttempts ++ [pid] }
    let r := danbooruStoreOp st2.files st2.metaIds pid fname
      (env.downloadOk imageUrl) (env.netErr imageUrl)
    ({ st2 with files := r.files, metaIds := r.metaIds }, r.log)

/-- Body of the `for post in posts` loop of `DanbooruCrawler.crawl`:
the file_url truthiness guard, the tag-intersection filter, the
`image_id_set` dedup (the id is added to the set before the extension
check and the download attempt), the extension allow-list, and the store
operation.  Every `continue` of the source is a branch returning the
state unchanged — and, notably, without any log line. -/
def processPost (env : DEnv) (st : DState) (post : Post) : DState × List String :=
  match post.fileUrl with
  | none => (st, [])
  | some u =>
    if u = "" then (st, [])
    else if !env.tags.isEmpty &&
        !(env.tags.any fun t => (pySplit (pyLower post.tagString)).contains t) then
      (st, [])
    else if post.id ∈ st.seen then (st, [])
    else storeSection env st post.id u

def processPosts (env : DEnv) : DState → List Post → DState × List String
  | st, [] => (st, [])
  | st, p :: ps =>
    let r := processPost env st p
    let r2 := processPosts env r.1 ps
    (r2.1, r.2 ++ r2.2)

/-- The page loop of `DanbooruCrawler.crawl` over the remaining page
numbers of `range(start_page, max_pages + 1)`: fetch, count empty pages
(stopping at 3 consecutive), reset the counter on a non-empty page and
process its posts. -/
def crawlPages (env : DEnv) : DState → List Nat → DState × List String
  | st, [] => (st, [])
  | st, p :: rest =>
    let hdr := [dPageHeaderLine env.tags p]
    let fr := fetchPosts env p
    let st1 := { st with fetchedPages := st.fetchedPages ++ [p] }
    if fr.1 = [] then
      let st2 := { st1 with emptyCnt := st1.emptyCnt + 1 }
      let cntLog := [dEmptyCntLine st2.emptyCnt]
      if st2.emptyCnt ≥ 3 then
        (st2, hdr ++ fr.2 ++ cntLog ++ [dStopLine p])
      else
        let r := crawlPages env st2 rest
        (r.1, hdr ++ fr.2 ++ cntLog ++ r.2)
    else
      let st2 := { st1 with emptyCnt := 0 }
      let pr := processPosts env st2 fr.1
      let r := crawlPages env pr.1 rest
      (r.1, hdr ++ fr.2 ++ pr.2 ++ r.2)

def dStartLine (env : DEnv) : String :=
  "Start crawling Danbooru (start page: " ++ toString env.startPage ++
    ", per page: " ++ toString env.imagesPerPage ++ ")"

def dCompleteLine (n : Nat) : String :=
  "Download complete: " ++ toString n ++ " images saved to danbooru_images"

/-- Page numbers visited by `for page in range(start_page, max_pages + 1)`. -/
def dPageRange (env : DEnv) : List Nat :=
  List.range' env.startPage (env.maxPages + 1 - env.startPage)

/-- `DanbooruCrawler.crawl`: final state and emitted log. -/
def danbooruCrawl (env : DEnv) : DState × List String :=
  let r := crawlPages env dInit (dPageRange env)
  (r.1, [dStartLine env] ++ r.2 ++ [dCompleteLine r.1.metaIds.length])

/-! ## Pixiv crawler (pixiv_crawler.py): rate limiter -/

/-- `self.min_request_interval = 2.0`. -/
def minRequestInterval : ℚ := 2

/-- Outcome of one `PixivCrawler.rate_limit` call: how long it slept and
the value stored into the shared `self.last_request_time` at its return. -/
structure RateLimitRes where
  sleepTime : ℚ
  newLast : ℚ
deriving Repr, DecidableEq

/-- `PixivCrawler.rate_limit` at wall-clock time `now`, with the shared
`last_request_time` equal to `last` and the `random.uniform(0.1, 0.5)`
draw equal to `jitter`.  The trailing `self.last_request_time =
time.time()` reads the clock after the sleep and is modelled as
`now + sleepTime` (computation between the two clock reads is treated as
instantaneous). -/
def rateLimit (now last jitter : ℚ) : RateLimitRes :=
  let timeSinceLast := now - last
  if timeSinceLast < minRequestInterval then
    let s := (minRequestInterval - timeSinceLast) + jitter
    { sleepTime := s, newLast := now + s }
  else
    { sleepTime := 0, newLast := now }

/-! ## Pixiv crawler: credential (cookie) pool -/

/-- The part of a `requests.Session` determined by the credential: the
PHPSESSID cookie embedded at construction time (headers and the urllib3
retry adapter are constants). -/
structure PixivSession where
  sessionCookie : String
deriving Repr, DecidableEq

/-- `PixivCrawler.create_session` for cookie list `cookies` and
`current_cookie_index = idx`: a fresh session with
`cookies[idx]` set as PHPSESSID. -/
def createSession (cookies : List String) (idx : Nat) : PixivSession :=
  { sessionCookie := cookies.getD idx ("") }

/-- The cookie-pool state of a `PixivCrawler`. -/
structure CookieSt where
  cookies : List String
  currentCookieIndex : Nat
  session : PixivSession
deriving Repr, DecidableEq

/-- `PixivCrawler.rotate_cookie`: advance the index circularly, rebuild
the session from scratch, and sleep 5 seconds (the returned rational). -/
def rotateCookie (st : CookieSt) : CookieSt × ℚ :=
  let idx := (st.currentCookieIndex + 1) % st.cookies.length
  ({ st with currentCookieIndex := idx, session := createSession st.cookies idx }, 5)

/-- `n` successive rotations. -/
def rotateN : Nat → CookieSt → CookieSt
  | 0, st => st
  | n + 1, st => rotateN n (rotateCookie st).1

/-! ## Pixiv crawler: get_image_details retry loop -/

/-- Outcome of one attempt of the `get_image_details` body (the two GETs
plus JSON decoding): success with the per-page original URLs it resolves,
or a `requests.exceptions.RequestException` whose text may contain
"429". -/
inductive DetailOutcome where
  | success (urls : List String)
  | reqError (is429 : Bool)

/-- Observable result of `PixivCrawler.get_image_details`: the returned
URL list, how many attempts ran, the backoff sleeps computed before each
retry, and how many cookie rotations were triggered. -/
structure DetailRes where
  urls : List String
  attemptsUsed : Nat
  waits : List ℚ
  rotations : Nat
deriving Repr, DecidableEq

/-- Base backoff delay `2 ** attempt` computed at `wait_time = (2 **
attempt) + random.uniform(0, 1)`. -/
def backoffBase (attempt : Nat) : ℚ := 2 ^ attempt

/-- The `for attempt in range(max_retries)` loop of `get_image_details`,
processing the remaining attempt indices.  `oc a` is the outcome of the
attempt body at index `a`; `jit a` is the `random.uniform(0, 1)` draw
before the retry that follows attempt `a`. -/
def detailsGo (oc : Nat → DetailOutcome) (jit : Nat → ℚ) (maxRetries : Nat) :
    List Nat → DetailRes
  | [] => { urls := [], attemptsUsed := 0, waits := [], rotations := 0 }
  | a :: rest =>
    match oc a with
    | DetailOutcome.success urls =>
      { urls := urls, attemptsUsed := 1, waits := [], rotations := 0 }
    | DetailOutcome.reqError is429 =>
      if a < maxRetries - 1 then
        let w := backoffBase a + jit a
        let r := detailsGo oc jit maxRetries rest
        { urls := r.urls, attemptsUsed := r.attemptsUsed + 1, waits := w :: r.waits,
          rotations := r.rotations + (if is429 then 1 else 0) }
      else
        { urls := [], attemptsUsed := 1, waits := [], rotations := 0 }

/-- `PixivCrawler.get_image_details` with its default `max_retries=3`. -/
def getImageDetails (oc : Nat → DetailOutcome) (jit : Nat → ℚ) : DetailRes :=
  detailsGo oc jit 3 (List.range 3)

/-! ## Pixiv crawler: sink (download_image) -/

/-- Durable storage seen by the pixiv crawlers: image files in
`output_dir` and keys under `metadata/` (key `k` means the file
`metadata/k.json`). -/
structure PixivFS where
  files : List String
  metaKeys : List String
deriving Repr, DecidableEq

/-- Where a `download_image` network transfer fails, if it does:
before any byte is written (the GET or `raise_for_status` raises), in
the middle of the chunked body copy (a partial asset file remains), or
not at all. -/
inductive DlNet where
  | failEarly (msg : String)
  | failMid (msg : String)
  | ok
deriving Repr, DecidableEq

/-- Result of one pixiv store operation. -/
structure PStoreRes where
  ok : Bool
  fs : PixivFS
  events : List WEvent
  log : List String
deriving Repr, DecidableEq

/-- The key `f"{image_id}_p{page_index}"` used for the asset name and the
metadata record of `PixivCrawler.download_image`. -/
def pixivKey (imageId : String) (pageIndex : Nat) : String :=
  imageId ++ "_p" ++ toString pageIndex

def pixivDlErrLine (url msg : String) : String :=
  "Error downloading " ++ url ++ ": " ++ msg

/-- `PixivCrawler.download_image`: skip (returning False, writing
nothing) if the asset file already exists; otherwise stream the body into
the asset file and only then write the metadata record, returning True.
A failure before the body leaves storage untouched; a failure inside the
chunk loop leaves a partial asset file and no metadata record.  Either
failure prints an error line and returns False. -/
def pixivDownloadImage (fs : PixivFS) (url imageId : String) (pageIndex : Nat)
    (net : DlNet) : PStoreRes :=
  let key := pixivKey imageId pageIndex
  let fname := key ++ ".jpg"
  if fname ∈ fs.files then
    { ok := false, fs := fs, events := [], log := [] }
  else
    match net with
    | DlNet.failEarly m =>
      { ok := false, fs := fs, events := [], log := [pixivDlErrLine url m] }
    | DlNet.failMid m =>
      { ok := false, fs := { fs with files := insertFile fs.files fname }
        events := [WEvent.assetWrite fname], log := [pixivDlErrLine url m] }
    | DlNet.ok =>
      { ok := true
        fs := { fs with files := insertFile fs.files fname
                        metaKeys := fs.metaKeys ++ [key] }
        events := [WEvent.assetWrite fname, WEvent.metaWrite key]
        log := [] }

/-! ## Pixiv crawler: search_and_download loop -/

/-- The fields of one entry of `body.illustManga.data` that the loop
inspects: the work id (a string in the pixiv JSON) and `illustType`
(`none` models an absent field, which `illust.get('illustType')` turns
into `None`). -/
structure PItem where
  id : String
  illustType : Option Int
deriving Repr, DecidableEq

/-- Environment of one `search_and_download` run.  `pages p` is the
outcome of the search GET for page `p`: `Except.error` models an
exception anywhere in the `try` body before the item loop, and
`Except.ok items` the decoded `body.illustManga.data` list (empty when
the field is missing or empty, which triggers the `break`).
`details i` gives the URL list that `get_image_details(i)` returns
(its failures are internal and yield `[]`), and `dl i k` the network
outcome of the download of page `k` of work `i`. -/
structure PixEnv where
  maxImages : Nat
  pages : Nat → Except String (List PItem)
  details : String → List String
  dl : String → Nat → DlNet

/-- State of one `search_and_download` run. -/
structure PSt where
  fs : PixivFS
  downloaded : Nat
  page : Nat
  consecutiveErrors : Nat
  rotations : Nat
  fetchedPages : List Nat
  detailFetched : List String
  storedKeys : List String
  storedIds : List String
deriving Repr, DecidableEq

def pInit : PSt :=
  { fs := { files := [], metaKeys := [] }, downloaded := 0, page := 1,
    consecutiveErrors := 0, rotations := 0, fetchedPages := [],
    detailFetched := [], storedKeys := [], storedIds := [] }

/-- The inner `for page_index, (image_url, metadata) in enumerate(zip(...))`
loop: download each sub-asset, counting successes, and break as soon as
the target is reached. -/
def downloadAll (env : PixEnv) (illustId : String) : PSt → List String → Nat → PSt
  | st, [], _ => st
  | st, url :: rest, idx =>
    let r := pixivDownloadImage st.fs url illustId idx (env.dl illustId idx)
    let st2 :=
      if r.ok then
        { st with fs := r.fs, downloaded := st.downloaded + 1,
                  consecutiveErrors := 0,
                  storedKeys := st.storedKeys ++ [pixivKey illustId idx],
                  storedIds := st.storedIds ++ [illustId] }
      else
        { st with fs := r.fs }
    if st2.downloaded ≥ env.maxImages then st2
    else downloadAll env illustId st2 rest (idx + 1)

/-- The `for illust in data['body']['illustManga']['data']` loop: stop at
the target, skip every item whose `illustType` is not 0 before doing
anything else, fetch its details, skip when no URL was resolved, and
otherwise download every resolved sub-asset. -/
def processItems (env : PixEnv) : PSt → List PItem → PSt
  | st, [] => st
  | st, it :: rest =>
    if st.downloaded ≥ env.maxImages then st
    else if it.illustType ≠ some 0 then processItems env st rest
    else
      let st1 := { st with detailFetched := st.detailFetched ++ [it.id] }
      let urls := env.details it.id
      if urls = [] then processItems env st1 rest
      else processItems env (downloadAll env it.id st1 urls 0) rest

/-- The `while downloaded_count < max_images` loop of
`search_and_download`, with fuel for the unbounded `while`.  The `except`
branch increments `consecutive_errors`, always rotates the cookie
(threshold 1) and resets the counter, then `continue`s with the page
number unchanged; the empty-page check `break`s; a processed page
advances the page number by one. -/
def searchLoop (env : PixEnv) : Nat → PSt → PSt
  | 0, st => st
  | fuel + 1, st =>
    if st.downloaded ≥ env.maxImages then st
    else
      let st1 := { st with fetchedPages := st.fetchedPages ++ [st.page] }
      match env.pages st.page with
      | Except.error _ =>
        let ce := st1.consecutiveErrors + 1
        let st2 :=
          if ce ≥ 1 then { st1 with rotations := st1.rotations + 1, consecutiveErrors := 0 }
          else { st1 with consecutiveErrors := ce }
        searchLoop env fuel st2
      | Except.ok items =>
        if items = [] then st1
        else
          let st2 := processItems env st1 items
          searchLoop env fuel { st2 with page := st2.page + 1 }

/-- A full `search_and_download` run from the initial state. -/
def searchRun (fuel : Nat) (env : PixEnv) : PSt :=
  searchLoop env fuel pInit

/-! ## Pixiv ranking crawler (pixiv_ranking_crawler.py) -/

/-- `PixivRankingCrawler.download_image`: identical store discipline to
the tag-search crawler, with asset name `{illust_id}.jpg` and metadata
key `{illust_id}`. -/
def rankingDownloadImage (fs : PixivFS) (url illustId : String) (net : DlNet) :
    PStoreRes :=
  let fname := illustId ++ ".jpg"
  if fname ∈ fs.files then
    { ok := false, fs := fs, events := [], log := [] }
  else
    match net with
    | DlNet.failEarly m =>
      { ok := false, fs := fs, events := []
        log := ["[ERROR] Download failed for " ++ url ++ ": " ++ m] }
    | DlNet.failMid m =>
      { ok := false, fs := { fs with files := insertFile fs.files fname }
        events := [WEvent.assetWrite fname]
        log := ["[ERROR] Download failed for " ++ url ++ ": " ++ m] }
    | DlNet.ok =>
      { ok := true
        fs := { fs with files := insertFile fs.files fname
                        metaKeys := fs.metaKeys ++ [illustId] }
        events := [WEvent.assetWrite fname, WEvent.metaWrite illustId]
        log := [] }

/-- Environment of one `PixivRankingCrawler.run`.  `pages p` is the
outcome of `get_illust_ids(p)` (`Except.error` models an exception in the
`try` body, which the `except` branch catches); `detail i` is the
original-image URL that `get_image_detail(i)` resolves, if any; `dl i`
the network outcome of the image download for illust `i`. -/
structure REnv where
  maxImages : Nat
  pages : Nat → Except String (List String)
  detail : String → Option String
  dl : String → DlNet

/-- State of one `PixivRankingCrawler.run`. -/
structure RSt where
  fs : PixivFS
  count : Nat
  page : Nat
  fetchedPages : List Nat
  storedIds : List String
deriving Repr, DecidableEq

def rInit : RSt :=
  { fs := { files := [], metaKeys := [] }, count := 0, page := 1,
    fetchedPages := [], storedIds := [] }

/-- The `for illust_id in illust_ids` loop of `PixivRankingCrawler.run`:
stop at the target, skip ids whose detail call resolves no URL, download
the rest.  It never touches the page cursor. -/
def rankingItems (env : REnv) : RSt → List String → RSt
  | st, [] => st
  | st, i :: rest =>
    if st.count ≥ env.maxImages then st
    else
      match env.detail i with
      | none => rankingItems env st rest
      | some url =>
        let r := rankingDownloadImage st.fs url i (env.dl i)
        let st2 :=
          if r.ok then
            { st with fs := r.fs, count := st.count + 1,
                      storedIds := st.storedIds ++ [i] }
          else { st with fs := r.fs }
        rankingItems env st2 rest

/-- The `while count < max_images` loop of `PixivRankingCrawler.run`,
with fuel for the unbounded `while`.  Note the `except` branch: a failed
page fetch prints the error and advances the page cursor (`page += 1`)
exactly as a processed page does. -/
def rankingLoop (env : REnv) : Nat → RSt → RSt
  | 0, st => st
  | fuel + 1, st =>
    if st.count ≥ env.maxImages then st
    else
      let st1 := { st with fetchedPages := st.fetchedPages ++ [st.page] }
      match env.pages st.page with
      | Except.error _ => rankingLoop env fuel { st1 with page := st1.page + 1 }
      | Except.ok [] => st1
      | Except.ok ids =>
        let st2 := rankingItems env st1 ids
        rankingLoop env fuel { st2 with page := st2.page + 1 }

/-- A full `PixivRankingCrawler.run` from the initial state. -/
def rankingRun (fuel : Nat) (env : REnv) : RSt :=
  rankingLoop env fuel rInit

/-! ## Unsplash crawler (unsplash_crawler.py) -/

/-- Outcome of the search GET of `Crawler.crawl`: HTTP 200 with the
result item ids and the reported `total_pages` (absent field modelled as
`none`), or a non-200 status. -/
inductive UPage where
  | ok (results : List String) (totalPages : Option Nat)
  | badStatus (code : Nat)

structure UEnv where
  query : String
  startPage : Nat
  maxPage : Nat
  pages : Nat → UPage

/-- State of one unsplash `Crawler.crawl` run: files written under
`data/{query}` and the pages actually requested. -/
structure USt where
  files : List String
  fetchedPages : List Nat
deriving Repr, DecidableEq

/-- The page loop of unsplash `Crawler.crawl` over the remaining pages of
`range(start_page, max_page + 1)`: break on an empty result list or when
the reported `total_pages` falls behind the cursor; download items whose
file does not exist yet; on a non-200 status, sleep an hour and fall
through to the next page of the `for` loop. -/
def unsplashPages (env : UEnv) : USt → List Nat → USt
  | st, [] => st
  | st, p :: rest =>
    let st1 := { st with fetchedPages := st.fetchedPages ++ [p] }
    match env.pages p with
    | UPage.badStatus _ => unsplashPages env st1 rest
    | UPage.ok results totalPages =>
      if results = [] then st1
      else if totalPages.getD env.maxPage < p then st1
      else
        let st2 := { st1 with
          files := results.foldl (fun fs i => insertFile fs (i ++ ".jpg")) st1.files }
        unsplashPages env st2 rest

/-- A full unsplash `Crawler.crawl` run. -/
def unsplashCrawl (env : UEnv) : USt :=
  unsplashPages env { files := [], fetchedPages := [] }
    (List.range' env.startPage (env.maxPage + 1 - env.startPage))

/-! ## Invariants and comparison constructions -/

/-- The post list a page fetch yields once failures have been flattened to
the empty list (what the crawl loop actually consumes). -/
def pagePosts (env : DEnv) (p : Nat) : List Post :=
  match env.pages p with
  | Except.ok l => l
  | Except.error _ => []

/-- The same environment with every failing page replaced by a genuinely
empty page — the comparison run for the failure-isolation claim. -/
def cleanEnv (env : DEnv) : DEnv :=
  { env with pages := fun p => Except.ok (pagePosts env p) }

/-- Dedup invariant of the danbooru crawl state: download attempts are
pairwise distinct, every attempted id is in the seen set, and the
metadata ids are a (pairwise distinct) subset of the attempted ids. -/
def DInv (st : DState) : Prop :=
  st.downloadAttempts.Nodup ∧ (∀ i ∈ st.downloadAttempts, i ∈ st.seen) ∧
  st.metaIds.Nodup ∧ (∀ i ∈ st.metaIds, i ∈ st.downloadAttempts)

/-- Dedup invariant of the pixiv search state: stored keys are pairwise
distinct and each stored key's asset file is on disk. -/
def PInv (st : PSt) : Prop :=
  st.storedKeys.Nodup ∧ (∀ k ∈ st.storedKeys, (k ++ ".jpg") ∈ st.fs.files)

/-- Metadata presence implies asset presence, for the pixiv sink. -/
def pixivMetaInv (fs : PixivFS) : Prop :=
  ∀ k ∈ fs.metaKeys, (k ++ ".jpg") ∈ fs.files

/-- The id belongs to a single-image (`illustType = 0`) work of some page
of the search environment. -/
def envSingleImage (env : PixEnv) (i : String) : Prop :=
  ∃ p l it, env.pages p = Except.ok l ∧ it ∈ l ∧ it.id = i ∧ it.illustType = some 0

/-- Type-filter invariant of the pixiv search state: every detail-fetched
id is a single-image work of the environment, and every stored id was
detail-fetched first. -/
def TInv (env : PixEnv) (st : PSt) : Prop :=
  (∀ i ∈ st.detailFetched, envSingleImage env i) ∧
  (∀ i ∈ st.storedIds, i ∈ st.detailFetched)

/-! ## Concrete environments used by scenario theorems, counterexamples
and witnesses -/

/-- The two-page dedup scenario: page 1 returns items a, b and page 2
returns items b, c (all single-image), with a target of 10 items. -/
def scenarioEnv : PixEnv :=
  { maxImages := 10
    pages := fun p =>
      if p = 1 then Except.ok [⟨"a", some 0⟩, ⟨"b", some 0⟩]
      else if p = 2 then Except.ok [⟨"b", some 0⟩, ⟨"c", some 0⟩]
      else Except.ok []
    details := fun i => ["https://i.pximg.net/img-original/" ++ i ++ "_p0.jpg"]
    dl := fun _ _ => DlNet.ok }

/-- A danbooru source whose every page is genuinely empty. -/
def envAllEmpty : DEnv :=
  { tags := [], startPage := 1, maxPages := 10, imagesPerPage := 100,
    pages := fun _ => Except.ok [], downloadOk := fun _ => true,
    netErr := fun _ => "" }

/-- A pixiv search source whose first page is empty while the second page
still has a storable single-image item. -/
def envMoreAfterEmpty : PixEnv :=
  { maxImages := 10
    pages := fun p =>
      if p = 2 then Except.ok [⟨"z", some 0⟩] else Except.ok []
    details := fun i => [i]
    dl := fun _ _ => DlNet.ok }

/-- A danbooru source whose page fetches always raise. -/
def envFetchErr : DEnv :=
  { tags := [], startPage := 1, maxPages := 1, imagesPerPage := 100,
    pages := fun _ => Except.error ("boom"), downloadOk := fun _ => true,
    netErr := fun _ => "" }

/-- Durable storage already holding the asset `9_p0.jpg`. -/
def fsW7 : PixivFS := { files := ["9_p0.jpg"], metaKeys := [] }

/-- A ranking source whose first page fetch raises and whose second page
is empty. -/
def envC8run : REnv :=
  { maxImages := 10
    pages := fun p =>
      if p = 1 then Except.error ("connection reset") else Except.ok []
    detail := fun _ => none
    dl := fun _ => DlNet.ok }

/-- A post with no file_url: the crawl drops it without any log line. -/
def postNoUrl : Post := { id := 77777, fileUrl := none, tagString := "scenery" }

/-- A danbooru source whose single page returns only `postNoUrl`. -/
def envSilentDrop : DEnv :=
  { tags := [], startPage := 1, maxPages := 1, imagesPerPage := 100,
    pages := fun _ => Except.ok [postNoUrl], downloadOk := fun _ => true,
    netErr := fun _ => "" }

/-- A pixiv search source with one single-image work `w`. -/
def envOneWork : PixEnv :=
  { maxImages := 10
    pages := fun p => if p = 1 then Except.ok [⟨"w", some 0⟩] else Except.ok []
    details := fun i => [i]
    dl := fun _ _ => DlNet.ok }

/-! ## Theorems about the rate limiter (pixiv_crawler.py, rate_limit) -/

/-- Claim C4: for consecutive calls to the rate limiter, the second call
blocks until at least `minRequestInterval` (2.0 seconds) has elapsed since
the previous call's return; when it does block, the elapsed interval is
exactly `minRequestInterval` plus the `random.uniform(0.1, 0.5)` jitter
draw; and the shared `last_request_time` is updated to the time of this
call's return. -/
theorem c4_rate_limiter_spacing (now last jitter : ℚ)
    (hj1 : mkRat 1 10 ≤ jitter) (hj2 : jitter ≤ mkRat 1 2) :
    minRequestInterval = 2 ∧
    minRequestInterval ≤ (rateLimit now last jitter).newLast - last ∧
    ((rateLimit now last jitter).sleepTime ≠ 0 →
      (rateLimit now last jitter).newLast - last = minRequestInterval + jitter) ∧
    (rateLimit now last jitter).newLast = now + (rateLimit now last jitter).sleepTime := by
  have hj0 : (0 : ℚ) ≤ jitter := le_trans (by decide) hj1
  refine ⟨rfl, ?_, ?_, ?_⟩ <;>
      simp only [rateLimit, minRequestInterval] <;> split
  · next h => simp only; linarith
  · next h => simp only; linarith
  · next h => intro hs; simp only; ring
  · next h => intro hs; exact absurd rfl hs
  · next h => simp only
  · next h => simp only [add_zero]

/-- Witness for C4 at `now = 1`, `last = 0`, `jitter = 1/4` (a call that
has to block). -/
theorem c4_rate_limiter_spacing_witness :
    mkRat 1 10 ≤ mkRat 1 4 ∧ mkRat 1 4 ≤ mkRat 1 2 ∧
    (minRequestInterval ≤ (rateLimit 1 0 (mkRat 1 4)).newLast - 0 ∧
      ((rateLimit 1 0 (mkRat 1 4)).sleepTime ≠ 0 →
        (rateLimit 1 0 (mkRat 1 4)).newLast - 0 = minRequestInterval + mkRat 1 4) ∧
      (rateLimit 1 0 (mkRat 1 4)).newLast = 1 + (rateLimit 1 0 (mkRat 1 4)).sleepTime) :=
  ⟨by decide, by decide,
    (c4_rate_limiter_spacing 1 0 (mkRat 1 4) (by decide) (by decide)).2⟩

/-! ## Theorems about cookie rotation (pixiv_crawler.py, rotate_cookie) -/

theorem rotateN_cookies : ∀ (n : Nat) (st : CookieSt), (rotateN n st).cookies = st.cookies
  | 0, _ => rfl
  | n + 1, st => (rotateN_cookies n (rotateCookie st).1).trans rfl

theorem rotateN_index : ∀ (n : Nat) (st : CookieSt),
    st.currentCookieIndex < st.cookies.length →
    (rotateN n st).currentCookieIndex = (st.currentCookieIndex + n) % st.cookies.length
  | 0, st, h => by simp [rotateN, Nat.mod_eq_of_lt h]
  | n + 1, st, h => by
    have hK : 0 < st.cookies.length := lt_of_le_of_lt (Nat.zero_le _) h
    have h1 : (rotateCookie st).1.currentCookieIndex < (rotateCookie st).1.cookies.length := by
      simp only [rotateCookie]
      exact Nat.mod_lt _ hK
    have ih := rotateN_index n (rotateCookie st).1 h1
    show (rotateN n (rotateCookie st).1).currentCookieIndex = _
    rw [ih]
    simp only [rotateCookie]
    rw [Nat.mod_add_mod]
    congr 1
    omega

theorem mod_shift_surj (a K i : Nat) (hK : 0 < K) (hi : i < K) :
    ∃ j, j < K ∧ (a + j) % K = i := by
  refine ⟨(K - a % K + i) % K, Nat.mod_lt _ hK, ?_⟩
  have ha : a % K < K := Nat.mod_lt _ hK
  calc (a + (K - a % K + i) % K) % K
      = (a + (K - a % K + i)) % K := Nat.add_mod_mod ..
    _ = (a % K + (K - a % K + i)) % K := (Nat.mod_add_mod ..).symm
    _ = (K + i) % K := by congr 1; omega
    _ = i % K := Nat.add_mod_left K i
    _ = i := Nat.mod_eq_of_lt hi

theorem mod_shift_inj (a K j1 j2 : Nat) (h1 : j1 < K) (h2 : j2 < K)
    (h : (a + j1) % K = (a + j2) % K) : j1 = j2 := by
  have hc : j1 ≡ j2 [MOD K] := Nat.ModEq.add_left_cancel' a h
  simpa [Nat.ModEq, Nat.mod_eq_of_lt h1, Nat.mod_eq_of_lt h2] using hc

/-- Claim C5: rotation advances the index to `(index + 1) mod K` and
rebuilds the session from scratch with the new credential while paying a
5-second cooldown; iterating it walks `(index + n) mod K`; with `K > 1`
the first `K` rotations visit `K` pairwise-distinct indices covering every
index; with `K = 1` a rotation leaves the index and the active cookie
unchanged but still pays the cooldown. -/
theorem c5_rotation (st : CookieSt) (K : Nat) (hK : st.cookies.length = K)
    (hidx : st.currentCookieIndex < K) :
    ((rotateCookie st).1.currentCookieIndex = (st.currentCookieIndex + 1) % K ∧
      (rotateCookie st).1.session =
        createSession st.cookies ((st.currentCookieIndex + 1) % K) ∧
      (rotateCookie st).2 = 5) ∧
    (∀ n, (rotateN n st).currentCookieIndex = (st.currentCookieIndex + n) % K) ∧
    (1 < K →
      (((List.range K).map fun j => (rotateN (j + 1) st).currentCookieIndex).Nodup ∧
       ∀ i < K, i ∈ (List.range K).map fun j => (rotateN (j + 1) st).currentCookieIndex)) ∧
    (K = 1 →
      ((rotateCookie st).1.currentCookieIndex = st.currentCookieIndex ∧
       (rotateCookie st).1.cookies.getD (rotateCookie st).1.currentCookieIndex ("") =
         st.cookies.getD st.currentCookieIndex ("") ∧
       (rotateCookie st).2 = 5)) := by
  subst hK
  have hidx' := hidx
  have hfun : ∀ n, (rotateN n st).currentCookieIndex =
      (st.currentCookieIndex + n) % st.cookies.length :=
    fun n => rotateN_index n st hidx
  refine ⟨⟨by simp [rotateCookie], by simp [rotateCookie], rfl⟩, hfun, ?_, ?_⟩
  · intro h1K
    constructor
    · refine List.Nodup.map_on ?_ (List.nodup_range _)
      intro x hx y hy hxy
      rw [List.mem_range] at hx hy
      rw [hfun, hfun] at hxy
      have hx' : st.currentCookieIndex + (x + 1) = (st.currentCookieIndex + 1) + x := by omega
      have hy' : st.currentCookieIndex + (y + 1) = (st.currentCookieIndex + 1) + y := by omega
      rw [hx', hy'] at hxy
      exact mod_shift_inj _ _ _ _ hx hy hxy
    · intro i hi
      obtain ⟨j, hj, hji⟩ := mod_shift_surj (st.currentCookieIndex + 1)
        st.cookies.length i (lt_of_le_of_lt (Nat.zero_le _) hidx) hi
      refine List.mem_map.mpr ⟨j, List.mem_range.mpr hj, ?_⟩
      rw [hfun]
      rw [show st.currentCookieIndex + (j + 1) = (st.currentCookieIndex + 1) + j from by omega]
      exact hji
  · intro h1
    have h0 : st.currentCookieIndex = 0 := by omega
    refine ⟨?_, ?_, rfl⟩
    · simp [rotateCookie, h1, h0]
    · simp [rotateCookie, h1, h0]

/-- Concrete three-cookie pool for the C5 witness. -/
def stW5 : CookieSt :=
  { cookies := ["alpha", "beta", "gamma"], currentCookieIndex := 0,
    session := createSession ["alpha", "beta", "gamma"] 0 }

/-- Witness for C5: a pool of 3 cookies; 3 successive rotations visit 3
pairwise-distinct indices. -/
theorem c5_rotation_witness :
    stW5.cookies.length = 3 ∧ stW5.currentCookieIndex < 3 ∧ (1 : Nat) < 3 ∧
    (((List.range 3).map fun j => (rotateN (j + 1) stW5).currentCookieIndex).Nodup) :=
  ⟨rfl, by decide, by decide,
    ((c5_rotation stW5 3 rfl (by decide)).2.2.1 (by decide)).1⟩

/-! ## Theorems about the detail-fetch retry loop (pixiv_crawler.py,
get_image_details) -/

theorem detailsGo_attempts_le (oc : Nat → DetailOutcome) (jit : Nat → ℚ)
    (mr : Nat) : ∀ l : List Nat, (detailsGo oc jit mr l).attemptsUsed ≤ l.length
  | [] => Nat.le_refl 0
  | a :: rest => by
    rw [detailsGo]
    cases oc a with
    | success urls => simp
    | reqError is429 =>
      by_cases h : a < mr - 1
      · simp only [if_pos h]
        have := detailsGo_attempts_le oc jit mr rest
        simpa using Nat.add_le_add_right this 1
      · simp [if_neg h]

/-- Claim C6: the retry loop of `get_image_details` runs at most 3
attempts; when every attempt fails, the delays computed before the two
retries are exactly `2^0 + jitter(0)` and `2^1 + jitter(1)` (base doubling
per attempt plus the uniform draw); and the base delay `2^attempt` is
monotone, each base being twice the previous, so each computed delay
ignoring jitter is at least the previous base delay. -/
theorem c6_retry_backoff :
    (∀ (oc : Nat → DetailOutcome) (jit : Nat → ℚ),
      (getImageDetails oc jit).attemptsUsed ≤ 3) ∧
    (∀ (f : Nat → Bool) (jit : Nat → ℚ),
      (getImageDetails (fun a => DetailOutcome.reqError (f a)) jit).waits =
        [backoffBase 0 + jit 0, backoffBase 1 + jit 1] ∧
      (getImageDetails (fun a => DetailOutcome.reqError (f a)) jit).attemptsUsed = 3 ∧
      (getImageDetails (fun a => DetailOutcome.reqError (f a)) jit).urls = []) ∧
    (∀ a : Nat, backoffBase (a + 1) = 2 * backoffBase a) ∧
    (∀ a : Nat, backoffBase a ≤ backoffBase (a + 1)) := by
  refine ⟨?_, ?_, ?_, ?_⟩
  · intro oc jit
    exact detailsGo_attempts_le oc jit 3 (List.range 3)
  · intro f jit
    refine ⟨rfl, rfl, rfl⟩
  · intro a
    rw [backoffBase, backoffBase, pow_succ]
    ring
  · intro a
    have h1 : backoffBase (a + 1) = 2 * backoffBase a := by
      rw [backoffBase, backoffBase, pow_succ]; ring
    have h0 : (0 : ℚ) < backoffBase a := by
      rw [backoffBase]; positivity
    rw [h1]; linarith


/-! ## Dedup invariant of the danbooru crawl (claim C1) -/

theorem storeSection_dinv (env : DEnv) (st : DState) (pid : Nat) (u : String)
    (hnew : pid ∉ st.seen) (h : DInv st) : DInv (storeSection env st pid u).1 := by
  obtain ⟨hA, hAS, hM, hMA⟩ := h
  have hpA : pid ∉ st.downloadAttempts := fun hmem => hnew (hAS pid hmem)
  have hpM : pid ∉ st.metaIds := fun hmem => hpA (hMA pid hmem)
  by_cases hext : splitextExt (danbooruImageUrl u) ∉ dAllowedExts
  · simp only [storeSection, if_pos hext]
    exact ⟨hA, fun i hi => List.mem_append_left _ (hAS i hi), hM, hMA⟩
  · by_cases hdl : env.downloadOk (danbooruImageUrl u)
    · simp only [storeSection, if_neg hext, danbooruStoreOp, if_pos hdl]
      refine ⟨?_, ?_, ?_, ?_⟩ <;> dsimp only
      · simpa [List.nodup_append] using ⟨hA, fun hmem => hpA hmem⟩
      · intro i hi
        rcases List.mem_append.mp hi with h' | h'
        · exact List.mem_append_left _ (hAS i h')
        · simp only [List.mem_singleton] at h'
          subst h'
          exact List.mem_append_right _ (by simp)
      · simpa [List.nodup_append] using ⟨hM, fun hmem => hpM hmem⟩
      · intro i hi
        rcases List.mem_append.mp hi with h' | h'
        · exact List.mem_append_left _ (hMA i h')
        · simp only [List.mem_singleton] at h'
          subst h'
          exact List.mem_append_right _ (by simp)
    · simp only [storeSection, if_neg hext, danbooruStoreOp, if_neg hdl]
      refine ⟨?_, ?_, ?_, ?_⟩ <;> dsimp only
      · simpa [List.nodup_append] using ⟨hA, fun hmem => hpA hmem⟩
      · intro i hi
        rcases List.mem_append.mp hi with h' | h'
        · exact List.mem_append_left _ (hAS i h')
        · simp only [List.mem_singleton] at h'
          subst h'
          exact List.mem_append_right _ (by simp)
      · exact hM
      · intro i hi
        exact List.mem_append_left _ (hMA i hi)

theorem processPost_dinv (env : DEnv) (st : DState) (post : Post)
    (h : DInv st) : DInv (processPost env st post).1 := by
  unfold processPost
  cases post.fileUrl with
  | none => exact h
  | some u =>
    simp only
    split_ifs with h1 h2 h3
    · exact h
    · exact h
    · exact h
    · exact storeSection_dinv env st post.id u h3 h

theorem processPosts_dinv (env : DEnv) : ∀ (l : List Post) (st : DState),
    DInv st → DInv (processPosts env st l).1
  | [], _, h => h
  | p :: ps, st, h =>
    processPosts_dinv env ps (processPost env st p).1 (processPost_dinv env st p h)

theorem crawlPages_dinv (env : DEnv) : ∀ (ps : List Nat) (st : DState),
    DInv st → DInv (crawlPages env st ps).1
  | [], _, h => h
  | p :: rest, st, h => by
    rw [crawlPages]
    by_cases hfp : (fetchPosts env p).1 = []
    · simp only [if_pos hfp]
      by_cases hcnt : st.emptyCnt + 1 ≥ 3
      · simp only [if_pos hcnt]
        exact h
      · simp only [if_neg hcnt]
        exact crawlPages_dinv env rest _ h
    · simp only [if_neg hfp]
      exact crawlPages_dinv env rest _ (processPosts_dinv env _ _ h)

/-! ## Dedup invariant of the pixiv search loop (claim C1) -/

theorem insertFile_mono (files : List String) (fname : String) :
    ∀ f ∈ files, f ∈ insertFile files fname := by
  intro f hf
  unfold insertFile
  split
  · exact hf
  · exact List.mem_append_left _ hf

theorem pixivDownloadImage_spec (fs : PixivFS) (url imageId : String)
    (idx : Nat) (net : DlNet) :
    ((pixivDownloadImage fs url imageId idx net).ok = true →
      ((pixivKey imageId idx ++ ".jpg") ∉ fs.files ∧
       (pixivDownloadImage fs url imageId idx net).fs.files =
         fs.files ++ [pixivKey imageId idx ++ ".jpg"] ∧
       (pixivDownloadImage fs url imageId idx net).fs.metaKeys =
         fs.metaKeys ++ [pixivKey imageId idx])) ∧
    (∀ f ∈ fs.files, f ∈ (pixivDownloadImage fs url imageId idx net).fs.files) := by
  by_cases hmem : (pixivKey imageId idx ++ ".jpg") ∈ fs.files
  · have hred : pixivDownloadImage fs url imageId idx net =
        { ok := false, fs := fs, events := [], log := [] } := by
      simp only [pixivDownloadImage]
      rw [if_pos hmem]
    rw [hred]
    exact ⟨fun hok => absurd hok (by simp), fun f hf => hf⟩
  · cases net with
    | failEarly m =>
      have hred : pixivDownloadImage fs url imageId idx (DlNet.failEarly m) =
          { ok := false, fs := fs, events := [], log := [pixivDlErrLine url m] } := by
        simp only [pixivDownloadImage]
        rw [if_neg hmem]
      rw [hred]
      exact ⟨fun hok => absurd hok (by simp), fun f hf => hf⟩
    | failMid m =>
      have hred : pixivDownloadImage fs url imageId idx (DlNet.failMid m) =
          { ok := false
            fs := { fs with files := insertFile fs.files (pixivKey imageId idx ++ ".jpg") }
            events := [WEvent.assetWrite (pixivKey imageId idx ++ ".jpg")]
            log := [pixivDlErrLine url m] } := by
        simp only [pixivDownloadImage]
        rw [if_neg hmem]
      rw [hred]
      refine ⟨fun hok => absurd hok (by simp), ?_⟩
      intro f hf
      exact insertFile_mono _ _ f hf
    | ok =>
      have hred : pixivDownloadImage fs url imageId idx DlNet.ok =
          { ok := true
            fs := { fs with
              files := insertFile fs.files (pixivKey imageId idx ++ ".jpg")
              metaKeys := fs.metaKeys ++ [pixivKey imageId idx] }
            events := [WEvent.assetWrite (pixivKey imageId idx ++ ".jpg"),
                       WEvent.metaWrite (pixivKey imageId idx)]
            log := [] } := by
        simp only [pixivDownloadImage]
        rw [if_neg hmem]
      rw [hred]
      refine ⟨fun _ => ⟨hmem, ?_, rfl⟩, ?_⟩
      · dsimp only
        rw [insertFile, if_neg hmem]
      · intro f hf
        dsimp only
        exact insertFile_mono _ _ f hf

theorem downloadAll_pinv (env : PixEnv) (illustId : String) :
    ∀ (urls : List String) (st : PSt) (idx : Nat), PInv st →
    PInv (downloadAll env illustId st urls idx)
  | [], _, _, h => h
  | url :: rest, st, idx, h => by
    obtain ⟨hN, hF⟩ := h
    have hspec := pixivDownloadImage_spec st.fs url illustId idx (env.dl illustId idx)
    rw [downloadAll]
    by_cases hok : (pixivDownloadImage st.fs url illustId idx (env.dl illustId idx)).ok
    · obtain ⟨hnew, hfiles, _⟩ := hspec.1 hok
      have hkey : pixivKey illustId idx ∉ st.storedKeys := by
        intro hmem
        exact hnew (hF _ hmem)
      have hinv2 : PInv { st with
          fs := (pixivDownloadImage st.fs url illustId idx (env.dl illustId idx)).fs,
          downloaded := st.downloaded + 1, consecutiveErrors := 0,
          storedKeys := st.storedKeys ++ [pixivKey illustId idx],
          storedIds := st.storedIds ++ [illustId] } := by
        constructor
        · dsimp only
          simpa [List.nodup_append] using ⟨hN, fun hmem => hkey hmem⟩
        · dsimp only
          intro k hk
          rcases List.mem_append.mp hk with h' | h'
          · rw [hfiles]
            exact List.mem_append_left _ (hF k h')
          · simp only [List.mem_singleton] at h'
            subst h'
            rw [hfiles]
            exact List.mem_append_right _ (by simp)
      simp only [if_pos hok]
      split
      · exact hinv2
      · exact downloadAll_pinv env illustId rest _ (idx + 1) hinv2
    · have hinv2 : PInv { st with
          fs := (pixivDownloadImage st.fs url illustId idx (env.dl illustId idx)).fs } := by
        refine ⟨hN, ?_⟩
        intro k hk
        exact hspec.2 _ (hF k hk)
      simp only [if_neg hok]
      split
      · exact hinv2
      · exact downloadAll_pinv env illustId rest _ (idx + 1) hinv2

theorem processItems_pinv (env : PixEnv) : ∀ (items : List PItem) (st : PSt),
    PInv st → PInv (processItems env st items)
  | [], _, h => h
  | it :: rest, st, h => by
    rw [processItems]
    split
    · exact h
    · split
      · exact processItems_pinv env rest st h
      · have h1 : PInv { st with detailFetched := st.detailFetched ++ [it.id] } := h
        dsimp only
        split
        · exact processItems_pinv env rest _ h1
        · exact processItems_pinv env rest _
            (downloadAll_pinv env it.id (env.details it.id) _ 0 h1)

theorem searchLoop_pinv (env : PixEnv) : ∀ (fuel : Nat) (st : PSt),
    PInv st → PInv (searchLoop env fuel st)
  | 0, _, h => h
  | fuel + 1, st, h => by
    rw [searchLoop]
    split
    · exact h
    · have h1 : PInv { st with fetchedPages := st.fetchedPages ++ [st.page] } := h
      dsimp only
      split
      · refine searchLoop_pinv env fuel _ ?_
        split
        · exact h1
        · exact h1
      · split
        · exact h1
        · refine searchLoop_pinv env fuel _ ?_
          exact processItems_pinv env _ _ h1

/-- Claim C1: within a single harvest run at most one store (image
download + persist) is issued per item id: the danbooru crawl's attempted
downloads and written metadata ids are pairwise distinct for every
environment, the pixiv search loop's stored keys are pairwise distinct
for every environment, and on the 2-page scenario (page 1 = a, b;
page 2 = b, c; target 10) exactly the three keys of a, b, c are stored —
three stores, not four. -/
theorem c1_dedup_per_run :
    (∀ env : DEnv, (danbooruCrawl env).1.downloadAttempts.Nodup ∧
      (danbooruCrawl env).1.metaIds.Nodup) ∧
    (∀ (fuel : Nat) (env : PixEnv), (searchRun fuel env).storedKeys.Nodup) ∧
    (searchRun 10 scenarioEnv).storedKeys =
      [pixivKey ("a") 0, pixivKey ("b") 0, pixivKey ("c") 0] ∧
    (searchRun 10 scenarioEnv).downloaded = 3 := by
  refine ⟨?_, ?_, ?_, ?_⟩
  · intro env
    have h := crawlPages_dinv env (dPageRange env) dInit
      ⟨List.nodup_nil, by simp [dInit], List.nodup_nil, by simp [dInit]⟩
    obtain ⟨hA, _, hM, _⟩ := h
    exact ⟨hA, hM⟩
  · intro fuel env
    exact (searchLoop_pinv env fuel pInit ⟨List.nodup_nil, by simp [pInit]⟩).1
  · decide
  · decide

/-! ## Failure-as-empty-page isolation (claim C3) -/

theorem fetchPosts_fst (env : DEnv) (p : Nat) :
    (fetchPosts env p).1 = pagePosts env p := by
  rw [fetchPosts, pagePosts]
  cases env.pages p <;> rfl

theorem fetchPosts_clean (env : DEnv) (p : Nat) :
    fetchPosts (cleanEnv env) p = (pagePosts env p, []) := rfl

theorem processPosts_clean (env : DEnv) : ∀ (l : List Post) (st : DState),
    processPosts (cleanEnv env) st l = processPosts env st l
  | [], _ => rfl
  | p :: ps, st => by
    rw [processPosts, processPosts]
    have h1 : processPost (cleanEnv env) st p = processPost env st p := rfl
    rw [h1, processPosts_clean env ps]

theorem crawlPages_clean (env : DEnv) : ∀ (ps : List Nat) (st : DState),
    (crawlPages env st ps).1 = (crawlPages (cleanEnv env) st ps).1
  | [], _ => rfl
  | p :: rest, st => by
    rw [crawlPages, crawlPages, fetchPosts_clean env p]
    by_cases hp : pagePosts env p = []
    · rw [fetchPosts_fst env p] at *
      simp only [hp, if_pos]
      split
      · rfl
      · exact crawlPages_clean env rest _
    · rw [fetchPosts_fst env p] at *
      simp only [hp, if_neg, processPosts_clean env]
      exact crawlPages_clean env rest _

/-- Claim C3: a page fetch that raises is logged and yields an empty page
result, and the whole run then behaves exactly as if that page had been
genuinely empty — same final state (dedup set, files, metadata, attempted
downloads, pages visited, empty-page counter), so the failure counts
toward the consecutive-empty termination threshold and never aborts the
run. -/
theorem c3_failure_as_empty_page :
    (∀ (env : DEnv) (p : Nat) (e : String), env.pages p = Except.error e →
      fetchPosts env p = ([], [dFetchErrLine p e])) ∧
    (∀ env : DEnv, (danbooruCrawl env).1 = (danbooruCrawl (cleanEnv env)).1) := by
  constructor
  · intro env p e h
    rw [fetchPosts, h]
  · intro env
    exact crawlPages_clean env (dPageRange env) dInit

/-- Witness for C3: a fetch that raises on page 1 returns the empty page
plus the error line. -/
theorem c3_failure_as_empty_page_witness :
    envFetchErr.pages 1 = Except.error ("boom") ∧
    fetchPosts envFetchErr 1 = ([], [dFetchErrLine 1 ("boom")]) :=
  ⟨rfl, c3_failure_as_empty_page.1 envFetchErr 1 ("boom") rfl⟩

/-! ## Consecutive-empty termination (claim C2) -/

theorem crawlPages_all_empty (env : DEnv) (hemp : ∀ p, env.pages p = Except.ok []) :
    ∀ (ps : List Nat) (st : DState), st.emptyCnt < 3 →
    (crawlPages env st ps).1.fetchedPages.length =
      st.fetchedPages.length + min (3 - st.emptyCnt) ps.length
  | [], st, _ => by simp [crawlPages]
  | p :: rest, st, h => by
    have hfp : fetchPosts env p = ([], []) := by rw [fetchPosts, hemp p]
    rw [crawlPages, hfp]
    simp only [if_true]
    by_cases hcnt : st.emptyCnt + 1 ≥ 3
    · rw [if_pos hcnt]
      dsimp only
      simp only [List.length_append, List.length_cons, List.length_nil]
      omega
    · rw [if_neg hcnt]
      have ih := crawlPages_all_empty env hemp rest
        { st with fetchedPages := st.fetchedPages ++ [p], emptyCnt := st.emptyCnt + 1 }
        (by simpa using Nat.lt_of_not_le hcnt)
      rw [ih]
      dsimp only
      simp only [List.length_append, List.length_cons, List.length_nil]
      omega

/-- Claim C2 (amended): against a source whose every page is empty, the
danbooru crawl fetches exactly `min 3 numPages` pages — the
consecutive-empty counter is incremented on each empty page, the run
terminates normally when it reaches 3, and below the threshold the cursor
advances and the loop continues; the pixiv tag-search loop instead breaks
on the very first empty page (thus also within at most 3 consecutive
empty pages, but without any counter). -/
theorem c2_empty_page_termination :
    (∀ env : DEnv, (∀ p, env.pages p = Except.ok []) →
      (danbooruCrawl env).1.fetchedPages.length =
        min 3 (env.maxPages + 1 - env.startPage)) ∧
    (∀ (env : PixEnv) (fuel : Nat), env.pages 1 = Except.ok [] →
      0 < env.maxImages → (searchRun (fuel + 1) env).fetchedPages = [1]) := by
  constructor
  · intro env hemp
    have h := crawlPages_all_empty env hemp (dPageRange env) dInit (by simp [dInit])
    have hlen : (dPageRange env).length = env.maxPages + 1 - env.startPage := by
      rw [dPageRange, List.length_range']
    rw [dPageRange] at h
    simpa [dInit, hlen, dPageRange] using h
  · intro env fuel h1 hpos
    have hnot : ¬ (pInit.downloaded ≥ env.maxImages) := by
      simp [pInit]
      omega
    rw [searchRun, searchLoop]
    rw [if_neg hnot]
    simp only [pInit]
    rw [h1]
    simp

/-- Witness for C2's amended theorem: an all-empty 10-page danbooru
source fetches exactly three pages. -/
theorem c2_empty_page_termination_witness :
    (∀ p, envAllEmpty.pages p = Except.ok []) ∧
    (danbooruCrawl envAllEmpty).1.fetchedPages.length =
      min 3 (envAllEmpty.maxPages + 1 - envAllEmpty.startPage) :=
  ⟨fun _ => rfl, c2_empty_page_termination.1 envAllEmpty (fun _ => rfl)⟩

/-- Counterexample to C2 as stated: the pixiv tag-search loop
(`search_and_download`) does not maintain a consecutive-empty counter
with threshold 3 — after a single empty page it stops, even though the
next page still holds a storable single-image item: only page 1 is ever
fetched and nothing is downloaded. -/
theorem c2_counterexample :
    envMoreAfterEmpty.pages 1 = Except.ok [] ∧
    envMoreAfterEmpty.pages 2 = Except.ok [{ id := "z", illustType := some 0 }] ∧
    (searchRun 10 envMoreAfterEmpty).fetchedPages = [1] ∧
    (searchRun 10 envMoreAfterEmpty).storedKeys = [] ∧
    (searchRun 10 envMoreAfterEmpty).downloaded = 0 := by
  refine ⟨rfl, rfl, ?_, ?_, ?_⟩ <;> decide

/-! ## Cursor ownership and advancement (claim C8) -/

theorem rankingItems_keeps (env : REnv) : ∀ (ids : List String) (st : RSt),
    (rankingItems env st ids).page = st.page ∧
    (rankingItems env st ids).fetchedPages = st.fetchedPages
  | [], _ => ⟨rfl, rfl⟩
  | i :: rest, st => by
    rw [rankingItems]
    split
    · exact ⟨rfl, rfl⟩
    · split
      · exact rankingItems_keeps env rest st
      · dsimp only
        split
        · exact rankingItems_keeps env rest _
        · exact rankingItems_keeps env rest _

theorem rankingLoop_cursor (env : REnv) : ∀ (fuel : Nat) (st : RSt),
    st.page ≤ (rankingLoop env fuel st).page ∧
    ∃ m, (rankingLoop env fuel st).fetchedPages =
      st.fetchedPages ++ List.range' st.page m
  | 0, st => ⟨Nat.le_refl _, 0, by simp [rankingLoop]⟩
  | fuel + 1, st => by
    rw [rankingLoop]
    split
    · exact ⟨Nat.le_refl _, 0, by simp⟩
    · split
      next e =>
        -- failed fetch: page += 1 and recurse
        dsimp only
        obtain ⟨hle, m, hm⟩ := rankingLoop_cursor env fuel { fs := st.fs, count := st.count, page := st.page + 1, fetchedPages := st.fetchedPages ++ [st.page], storedIds := st.storedIds }
        refine ⟨le_trans (Nat.le_succ st.page) hle, m + 1, ?_⟩
        rw [hm, List.range'_succ]
        simp
      next =>
        -- empty page: break with the cursor untouched
        exact ⟨Nat.le_refl _, 1, by simp [List.range'_succ]⟩
      next ids hne heq =>
        -- processed page: page += 1 and recurse
        dsimp only
        have hkeepP : (rankingItems env { fs := st.fs, count := st.count, page := st.page, fetchedPages := st.fetchedPages ++ [st.page], storedIds := st.storedIds } ids).page = st.page :=
          (rankingItems_keeps env ids _).1
        have hkeepF : (rankingItems env { fs := st.fs, count := st.count, page := st.page, fetchedPages := st.fetchedPages ++ [st.page], storedIds := st.storedIds } ids).fetchedPages = st.fetchedPages ++ [st.page] :=
          (rankingItems_keeps env ids _).2
        rw [hkeepP, hkeepF]
        obtain ⟨hle, m, hm⟩ := rankingLoop_cursor env fuel { fs := (rankingItems env { fs := st.fs, count := st.count, page := st.page, fetchedPages := st.fetchedPages ++ [st.page], storedIds := st.storedIds } ids).fs, count := (rankingItems env { fs := st.fs, count := st.count, page := st.page, fetchedPages := st.fetchedPages ++ [st.page], storedIds := st.storedIds } ids).count, page := st.page + 1, fetchedPages := st.fetchedPages ++ [st.page], storedIds := (rankingItems env { fs := st.fs, count := st.count, page := st.page, fetchedPages := st.fetchedPages ++ [st.page], storedIds := st.storedIds } ids).storedIds }
        refine ⟨le_trans (Nat.le_succ st.page) hle, m + 1, ?_⟩
        rw [hm, List.range'_succ]
        simp

theorem storeSection_keeps (env : DEnv) (st : DState) (pid : Nat) (u : String) :
    (storeSection env st pid u).1.fetchedPages = st.fetchedPages := by
  simp only [storeSection]
  split
  · rfl
  · dsimp only

theorem processPost_keeps (env : DEnv) (st : DState) (post : Post) :
    (processPost env st post).1.fetchedPages = st.fetchedPages := by
  unfold processPost
  cases post.fileUrl with
  | none => rfl
  | some u =>
    simp only
    split_ifs with h1 h2 h3
    · rfl
    · rfl
    · rfl
    · exact storeSection_keeps env st post.id u

theorem processPosts_keeps (env : DEnv) : ∀ (l : List Post) (st : DState),
    (processPosts env st l).1.fetchedPages = st.fetchedPages
  | [], _ => rfl
  | p :: ps, st => by
    rw [processPosts]
    dsimp only
    rw [processPosts_keeps env ps, processPost_keeps env st p]

theorem crawlPages_take (env : DEnv) : ∀ (ps : List Nat) (st : DState),
    ∃ m, (crawlPages env st ps).1.fetchedPages = st.fetchedPages ++ ps.take m
  | [], st => ⟨0, by simp [crawlPages]⟩
  | p :: rest, st => by
    rw [crawlPages]
    dsimp only
    split
    · split
      · exact ⟨1, by simp⟩
      · obtain ⟨m, hm⟩ := crawlPages_take env rest { seen := st.seen, files := st.files, metaIds := st.metaIds, downloadAttempts := st.downloadAttempts, fetchedPages := st.fetchedPages ++ [p], emptyCnt := st.emptyCnt + 1 }
        refine ⟨m + 1, ?_⟩
        rw [hm]
        simp
    · obtain ⟨m, hm⟩ := crawlPages_take env rest (processPosts env { seen := st.seen, files := st.files, metaIds := st.metaIds, downloadAttempts := st.downloadAttempts, fetchedPages := st.fetchedPages ++ [p], emptyCnt := 0 } (fetchPosts env p).1).1
      refine ⟨m + 1, ?_⟩
      rw [hm, processPosts_keeps env]
      simp

theorem unsplashPages_take (env : UEnv) : ∀ (ps : List Nat) (st : USt),
    ∃ m, (unsplashPages env st ps).fetchedPages = st.fetchedPages ++ ps.take m
  | [], st => ⟨0, by simp [unsplashPages]⟩
  | p :: rest, st => by
    rw [unsplashPages]
    split
    · obtain ⟨m, hm⟩ := unsplashPages_take env rest { files := st.files, fetchedPages := st.fetchedPages ++ [p] }
      refine ⟨m + 1, ?_⟩
      rw [hm]
      simp
    · split
      · exact ⟨1, by simp⟩
      · split
        · exact ⟨1, by simp⟩
        · dsimp only
          obtain ⟨m, hm⟩ := unsplashPages_take env rest { files := List.foldl (fun fs i => insertFile fs (i ++ ".jpg")) st.files _, fetchedPages := st.fetchedPages ++ [p] }
          refine ⟨m + 1, ?_⟩
          rw [hm]
          simp

/-- Claim C8 (amended): each pagination cursor is a monotonically
increasing page number owned by its engine loop — the ranking loop's
fetched pages always form the consecutive block starting at the current
cursor and the cursor never decreases, and the danbooru and unsplash
loops fetch an initial segment of their configured page range — but the
cursor advances on every completed iteration, including after a failed
fetch (the ranking loop's except branch does `page += 1`), not only on
successful fetches. -/
theorem c8_cursor_monotone :
    (∀ (env : REnv) (fuel : Nat) (st : RSt),
      st.page ≤ (rankingLoop env fuel st).page ∧
      ∃ m, (rankingLoop env fuel st).fetchedPages =
        st.fetchedPages ++ List.range' st.page m) ∧
    (∀ env : DEnv, ∃ m,
      (danbooruCrawl env).1.fetchedPages = (dPageRange env).take m) ∧
    (∀ env : UEnv, ∃ m,
      (unsplashCrawl env).fetchedPages =
        (List.range' env.startPage (env.maxPage + 1 - env.startPage)).take m) := by
  refine ⟨fun env fuel st => rankingLoop_cursor env fuel st, ?_, ?_⟩
  · intro env
    obtain ⟨m, hm⟩ := crawlPages_take env (dPageRange env) dInit
    exact ⟨m, by simpa [dInit] using hm⟩
  · intro env
    obtain ⟨m, hm⟩ := unsplashPages_take env
      (List.range' env.startPage (env.maxPage + 1 - env.startPage))
      { files := [], fetchedPages := [] }
    exact ⟨m, by simpa using hm⟩

/-- Counterexample to C8 as stated: in `PixivRankingCrawler.run` the page
fetch for page 1 raises, yet the cursor is advanced to page 2 by the
except branch and page 2 is fetched next — the cursor advanced as a
consequence of a failed fetch. -/
theorem c8_counterexample :
    envC8run.pages 1 = Except.error ("connection reset") ∧
    (rankingRun 10 envC8run).fetchedPages = [1, 2] ∧
    (rankingRun 10 envC8run).page = 2 := by
  refine ⟨rfl, ?_, ?_⟩ <;> decide

/-! ## Sink store contract (claim C7) -/

/-- Claim C7 (amended): the pixiv sinks (`download_image` of the
tag-search and ranking crawlers) return false and write nothing when the
asset already exists, and otherwise write the asset first and the
metadata record second, so metadata presence implies asset presence, and
a download that fails mid-operation writes no metadata record; the
danbooru store keeps the same write ordering (asset before metadata,
no metadata on a failed download) but performs no durable-storage
existence check: it downloads, overwrites and returns success even when
the asset is already present. -/
theorem c7_store_contract :
    (∀ (fs : PixivFS) (url imageId : String) (pageIndex : Nat) (net : DlNet),
      (pixivKey imageId pageIndex ++ ".jpg") ∈ fs.files →
      pixivDownloadImage fs url imageId pageIndex net =
        { ok := false, fs := fs, events := [], log := [] }) ∧
    (∀ (fs : PixivFS) (url imageId : String) (pageIndex : Nat) (net : DlNet),
      pixivMetaInv fs → pixivMetaInv (pixivDownloadImage fs url imageId pageIndex net).fs) ∧
    (∀ (fs : PixivFS) (url imageId : String) (pageIndex : Nat),
      (pixivKey imageId pageIndex ++ ".jpg") ∉ fs.files →
      (pixivDownloadImage fs url imageId pageIndex DlNet.ok).ok = true ∧
      (pixivDownloadImage fs url imageId pageIndex DlNet.ok).events =
        [WEvent.assetWrite (pixivKey imageId pageIndex ++ ".jpg"),
         WEvent.metaWrite (pixivKey imageId pageIndex)]) ∧
    (∀ (fs : PixivFS) (url imageId : String) (pageIndex : Nat) (m : String),
      (pixivDownloadImage fs url imageId pageIndex (DlNet.failMid m)).fs.metaKeys =
        fs.metaKeys ∧
      (pixivDownloadImage fs url imageId pageIndex (DlNet.failMid m)).ok = false ∧
      (pixivDownloadImage fs url imageId pageIndex (DlNet.failEarly m)).fs = fs) ∧
    (∀ (fs : PixivFS) (url illustId : String) (net : DlNet),
      (illustId ++ ".jpg") ∈ fs.files →
      rankingDownloadImage fs url illustId net =
        { ok := false, fs := fs, events := [], log := [] }) ∧
    (∀ (files : List String) (metaIds : List Nat) (imageId : Nat)
       (fname errMsg : String),
      (danbooruStoreOp files metaIds imageId fname true errMsg).ok = true ∧
      (danbooruStoreOp files metaIds imageId fname true errMsg).events =
        [WEvent.assetWrite fname, WEvent.metaWrite (toString imageId)] ∧
      (danbooruStoreOp files metaIds imageId fname false errMsg).metaIds = metaIds ∧
      (danbooruStoreOp files metaIds imageId fname false errMsg).events = []) ∧
    (∀ (fs : PixivFS) (url illustId : String) (net : DlNet),
      pixivMetaInv fs → pixivMetaInv (rankingDownloadImage fs url illustId net).fs) ∧
    (∀ (fs : PixivFS) (url illustId : String),
      (illustId ++ ".jpg") ∉ fs.files →
      (rankingDownloadImage fs url illustId DlNet.ok).ok = true ∧
      (rankingDownloadImage fs url illustId DlNet.ok).events =
        [WEvent.assetWrite (illustId ++ ".jpg"), WEvent.metaWrite illustId]) ∧
    (∀ (fs : PixivFS) (url illustId : String) (m : String),
      (rankingDownloadImage fs url illustId (DlNet.failMid m)).fs.metaKeys =
        fs.metaKeys ∧
      (rankingDownloadImage fs url illustId (DlNet.failMid m)).ok = false ∧
      (rankingDownloadImage fs url illustId (DlNet.failEarly m)).fs = fs) := by
  refine ⟨?_, ?_, ?_, ?_, ?_, ?_, ?_, ?_, ?_⟩
  · intro fs url imageId pageIndex net hmem
    simp only [pixivDownloadImage]
    rw [if_pos hmem]
  · intro fs url imageId pageIndex net hinv
    by_cases hmem : (pixivKey imageId pageIndex ++ ".jpg") ∈ fs.files
    · simp only [pixivDownloadImage]
      rw [if_pos hmem]
      exact hinv
    · cases net with
      | failEarly m =>
        simp only [pixivDownloadImage]
        rw [if_neg hmem]
        exact hinv
      | failMid m =>
        simp only [pixivDownloadImage]
        rw [if_neg hmem]
        intro k hk
        exact insertFile_mono _ _ _ (hinv k hk)
      | ok =>
        simp only [pixivDownloadImage]
        rw [if_neg hmem]
        intro k hk
        dsimp only at hk ⊢
        rcases List.mem_append.mp hk with h' | h'
        · exact insertFile_mono _ _ _ (hinv k h')
        · simp only [List.mem_singleton] at h'
          subst h'
          rw [insertFile, if_neg hmem]
          exact List.mem_append_right _ (by simp)
  · intro fs url imageId pageIndex hmem
    simp only [pixivDownloadImage]
    rw [if_neg hmem]
    exact ⟨rfl, rfl⟩
  · intro fs url imageId pageIndex m
    by_cases hmem : (pixivKey imageId pageIndex ++ ".jpg") ∈ fs.files
    · simp only [pixivDownloadImage]
      rw [if_pos hmem, if_pos hmem]
      exact ⟨rfl, rfl, rfl⟩
    · simp only [pixivDownloadImage]
      rw [if_neg hmem, if_neg hmem]
      exact ⟨rfl, rfl, rfl⟩
  · intro fs url illustId net hmem
    simp only [rankingDownloadImage]
    rw [if_pos hmem]
  · intro files metaIds imageId fname errMsg
    exact ⟨rfl, rfl, rfl, rfl⟩
  · intro fs url illustId net hinv
    by_cases hmem : (illustId ++ ".jpg") ∈ fs.files
    · simp only [rankingDownloadImage]
      rw [if_pos hmem]
      exact hinv
    · cases net with
      | failEarly m =>
        simp only [rankingDownloadImage]
        rw [if_neg hmem]
        exact hinv
      | failMid m =>
        simp only [rankingDownloadImage]
        rw [if_neg hmem]
        intro k hk
        exact insertFile_mono _ _ _ (hinv k hk)
      | ok =>
        simp only [rankingDownloadImage]
        rw [if_neg hmem]
        intro k hk
        dsimp only at hk ⊢
        rcases List.mem_append.mp hk with h' | h'
        · exact insertFile_mono _ _ _ (hinv k h')
        · simp only [List.mem_singleton] at h'
          subst h'
          rw [insertFile, if_neg hmem]
          exact List.mem_append_right _ (by simp)
  · intro fs url illustId hmem
    simp only [rankingDownloadImage]
    rw [if_neg hmem]
    exact ⟨rfl, rfl⟩
  · intro fs url illustId m
    by_cases hmem : (illustId ++ ".jpg") ∈ fs.files
    · simp only [rankingDownloadImage]
      rw [if_pos hmem, if_pos hmem]
      exact ⟨rfl, rfl, rfl⟩
    · simp only [rankingDownloadImage]
      rw [if_neg hmem, if_neg hmem]
      exact ⟨rfl, rfl, rfl⟩

/-- Counterexample to C7 as stated: the danbooru store, invoked while the
asset `5.jpg` is already on durable storage, still performs both writes
(asset then metadata) and reports success instead of returning false with
no writes. -/
theorem c7_counterexample :
    ("5.jpg" ∈ (["5.jpg"] : List String)) ∧
    (danbooruStoreOp ["5.jpg"] [] 5 ("5.jpg") true ("")).ok = true ∧
    (danbooruStoreOp ["5.jpg"] [] 5 ("5.jpg") true ("")).events =
      [WEvent.assetWrite ("5.jpg"), WEvent.metaWrite ("5")] ∧
    (danbooruStoreOp ["5.jpg"] [] 5 ("5.jpg") true ("")).metaIds = [5] := by
  refine ⟨by decide, ?_, ?_, ?_⟩ <;> decide

/-- Witness for C7's amended theorem: storing key `9_p0` a second time is
a no-op returning false. -/
theorem c7_store_contract_witness :
    (pixivKey ("9") 0 ++ ".jpg") ∈ fsW7.files ∧
    pixivDownloadImage fsW7 ("u") ("9") 0 DlNet.ok =
      { ok := false, fs := fsW7, events := [], log := [] } :=
  ⟨by decide, c7_store_contract.1 fsW7 ("u") ("9") 0 DlNet.ok (by decide)⟩

/-! ## Logging of dropped items (claim C9) -/

/-- Claim C9 (amended): page-fetch failures and download failures do emit
log lines (the fetch-error line identifies the page, the download-error
line carries only the exception text, not the item id), but an item
dropped by the missing-asset-URL, empty-asset-URL, tag-mismatch,
duplicate-id or extension filters is dropped with no log line at all —
the first four leave the state entirely unchanged, and the extension
filter only marks the id seen without writing or logging anything;
likewise the pixiv search loop skips a non-single-image item with no
state change. -/
theorem c9_drop_logging :
    (∀ (env : DEnv) (st : DState) (post : Post), post.fileUrl = none →
      processPost env st post = (st, [])) ∧
    (∀ (env : DEnv) (p : Nat) (e : String), env.pages p = Except.error e →
      fetchPosts env p = ([], [dFetchErrLine p e])) ∧
    (∀ (files : List String) (metaIds : List Nat) (imageId : Nat)
       (fname errMsg : String),
      (danbooruStoreOp files metaIds imageId fname false errMsg).log =
        [dDownloadErrLine errMsg]) ∧
    (∀ (env : DEnv) (st : DState) (post : Post), post.fileUrl = some ("") →
      processPost env st post = (st, [])) ∧
    (∀ (env : DEnv) (st : DState) (post : Post) (u : String),
      post.fileUrl = some u → u ≠ "" →
      (!env.tags.isEmpty &&
        !(env.tags.any fun t => (pySplit (pyLower post.tagString)).contains t)) = true →
      processPost env st post = (st, [])) ∧
    (∀ (env : DEnv) (st : DState) (post : Post) (u : String),
      post.fileUrl = some u → u ≠ "" →
      (!env.tags.isEmpty &&
        !(env.tags.any fun t => (pySplit (pyLower post.tagString)).contains t)) = false →
      post.id ∈ st.seen →
      processPost env st post = (st, [])) ∧
    (∀ (env : DEnv) (st : DState) (pid : Nat) (u : String),
      splitextExt (danbooruImageUrl u) ∉ dAllowedExts →
      storeSection env st pid u = ({ st with seen := st.seen ++ [pid] }, [])) ∧
    (∀ (env : PixEnv) (st : PSt) (it : PItem) (rest : List PItem),
      st.downloaded < env.maxImages → it.illustType ≠ some 0 →
      processItems env st (it :: rest) = processItems env st rest) := by
  refine ⟨?_, ?_, ?_, ?_, ?_, ?_, ?_, ?_⟩
  · intro env st post h
    unfold processPost
    rw [h]
  · intro env p e h
    rw [fetchPosts, h]
  · intro files metaIds imageId fname errMsg
    rfl
  · intro env st post h
    unfold processPost
    rw [h]
    dsimp only
    rw [if_pos rfl]
  · intro env st post u hfu hu htag
    unfold processPost
    rw [hfu]
    dsimp only
    rw [if_neg hu, if_pos htag]
  · intro env st post u hfu hu htag hseen
    unfold processPost
    rw [hfu]
    dsimp only
    rw [if_neg hu, if_neg (by rw [htag]; exact Bool.false_ne_true), if_pos hseen]
  · intro env st pid u hext
    simp only [storeSection]
    rw [if_pos hext]
  · intro env st it rest h1 h2
    rw [processItems]
    rw [if_neg (Nat.not_le.mpr h1), if_pos h2]

/-- Witness for C9's amended theorem: a post with no file_url is dropped
with no state change and no log line. -/
theorem c9_drop_logging_witness :
    postNoUrl.fileUrl = none ∧ processPost envSilentDrop dInit postNoUrl = (dInit, []) :=
  ⟨rfl, c9_drop_logging.1 envSilentDrop dInit postNoUrl rfl⟩

/-- Counterexample to C9 as stated: a full danbooru run over a page whose
only post (id 77777) lacks a file_url stores nothing and emits no log
line mentioning the id 77777 — the item is dropped silently, with no line
identifying its id or the reason. -/
theorem c9_counterexample :
    envSilentDrop.pages 1 = Except.ok [postNoUrl] ∧
    (danbooruCrawl envSilentDrop).1.metaIds = [] ∧
    (danbooruCrawl envSilentDrop).1.downloadAttempts = [] ∧
    ((danbooruCrawl envSilentDrop).2.all
      fun l => !(strContainsSub l (toString postNoUrl.id))) = true := by
  refine ⟨rfl, ?_, ?_, ?_⟩ <;> decide

/-! ## illustType filter of the pixiv search loop (claim C10) -/

theorem downloadAll_tinv (env : PixEnv) (illustId : String) :
    ∀ (urls : List String) (st : PSt) (idx : Nat),
    (∀ i ∈ st.storedIds, i ∈ st.detailFetched) → illustId ∈ st.detailFetched →
    (∀ i ∈ (downloadAll env illustId st urls idx).storedIds,
      i ∈ (downloadAll env illustId st urls idx).detailFetched) ∧
    (downloadAll env illustId st urls idx).detailFetched = st.detailFetched
  | [], _, _, hsub, _ => ⟨hsub, rfl⟩
  | url :: rest, st, idx, hsub, hmem => by
    rw [downloadAll]
    by_cases hok : (pixivDownloadImage st.fs url illustId idx (env.dl illustId idx)).ok
    · rw [if_pos hok]
      have hsub2 : ∀ i ∈ st.storedIds ++ [illustId], i ∈ st.detailFetched := by
        intro i hi
        rcases List.mem_append.mp hi with h' | h'
        · exact hsub i h'
        · simp only [List.mem_singleton] at h'
          subst h'
          exact hmem
      split
      · exact ⟨hsub2, rfl⟩
      · exact downloadAll_tinv env illustId rest _ (idx + 1) hsub2 hmem
    · rw [if_neg hok]
      split
      · exact ⟨hsub, rfl⟩
      · exact downloadAll_tinv env illustId rest _ (idx + 1) hsub hmem

theorem processItems_tinv (env : PixEnv) : ∀ (items : List PItem) (st : PSt),
    TInv env st → (∀ it ∈ items, ∃ p l, env.pages p = Except.ok l ∧ it ∈ l) →
    TInv env (processItems env st items)
  | [], _, h, _ => h
  | it :: rest, st, h, hsrc => by
    obtain ⟨hD, hS⟩ := h
    rw [processItems]
    split
    · exact ⟨hD, hS⟩
    · split
      · exact processItems_tinv env rest st ⟨hD, hS⟩ (fun x hx => hsrc x (List.mem_cons_of_mem it hx))
      · rename_i hmax htype
        have htype0 : it.illustType = some 0 := by
          by_contra hc
          exact htype hc
        have hD1 : ∀ i ∈ st.detailFetched ++ [it.id], envSingleImage env i := by
          intro i hi
          rcases List.mem_append.mp hi with h' | h'
          · exact hD i h'
          · simp only [List.mem_singleton] at h'
            subst h'
            obtain ⟨p, l, hp, hil⟩ := hsrc it (List.mem_cons_self it rest)
            exact ⟨p, l, it, hp, hil, rfl, htype0⟩
        have hS1 : ∀ i ∈ st.storedIds, i ∈ st.detailFetched ++ [it.id] :=
          fun i hi => List.mem_append_left _ (hS i hi)
        dsimp only
        split
        · exact processItems_tinv env rest _ ⟨hD1, hS1⟩ (fun x hx => hsrc x (List.mem_cons_of_mem it hx))
        · have hid : it.id ∈ st.detailFetched ++ [it.id] :=
            List.mem_append_right _ (by simp)
          obtain ⟨hsub2, hkeep⟩ := downloadAll_tinv env it.id (env.details it.id)
            { fs := st.fs, downloaded := st.downloaded, page := st.page, consecutiveErrors := st.consecutiveErrors, rotations := st.rotations, fetchedPages := st.fetchedPages, detailFetched := st.detailFetched ++ [it.id], storedKeys := st.storedKeys, storedIds := st.storedIds }
            0 hS1 hid
          refine processItems_tinv env rest _ ⟨?_, hsub2⟩ (fun x hx => hsrc x (List.mem_cons_of_mem it hx))
          rw [hkeep]
          exact hD1

theorem searchLoop_tinv (env : PixEnv) : ∀ (fuel : Nat) (st : PSt),
    TInv env st → TInv env (searchLoop env fuel st)
  | 0, _, h => h
  | fuel + 1, st, h => by
    rw [searchLoop]
    split
    · exact h
    · have h1 : TInv env { st with fetchedPages := st.fetchedPages ++ [st.page] } := h
      dsimp only
      split
      next e =>
        refine searchLoop_tinv env fuel _ ?_
        split
        · exact h1
        · exact h1
      next items heq =>
        split
        · exact h1
        · refine searchLoop_tinv env fuel _ ?_
          refine processItems_tinv env items _ h1 ?_
          intro x hx
          exact ⟨st.page, items, heq, hx⟩

/-- Claim C10: the pixiv tag-search loop skips every item whose
`illustType` is not 0 before any detail fetch or store attempt — the loop
body on such an item is the same as on the remaining items alone — and
consequently every detail-fetched id and every stored id of a run belongs
to a single-image (`illustType = 0`) item of some fetched page. -/
theorem c10_single_image_filter :
    (∀ (env : PixEnv) (st : PSt) (it : PItem) (rest : List PItem),
      st.downloaded < env.maxImages → it.illustType ≠ some 0 →
      processItems env st (it :: rest) = processItems env st rest) ∧
    (∀ (fuel : Nat) (env : PixEnv),
      (∀ i ∈ (searchRun fuel env).detailFetched, envSingleImage env i) ∧
      (∀ i ∈ (searchRun fuel env).storedIds,
        i ∈ (searchRun fuel env).detailFetched)) := by
  constructor
  · intro env st it rest h1 h2
    rw [processItems]
    rw [if_neg (Nat.not_le.mpr h1), if_pos h2]
  · intro fuel env
    exact searchLoop_tinv env fuel pInit ⟨by simp [pInit], by simp [pInit]⟩

/-- Witness for C10: in a run over a source whose page 1 holds the
single-image work `w`, the id `w` is detail-fetched, and the theorem
recovers that `w` is a single-image work of the environment. -/
theorem c10_single_image_filter_witness :
    ("w" ∈ (searchRun 10 envOneWork).detailFetched) ∧
    envSingleImage envOneWork ("w") :=
  ⟨by decide, (c10_single_image_filter.2 10 envOneWork).1 ("w") (by decide)⟩
